import Mathlib

/-!
Shallow embedding of the team-task-manager access-control core and the
project/task handlers (src/models.py, src/projects.py, src/tasks.py).

Conventions of the embedding:
* primary keys and user ids are `Nat`;
* timestamps are `Nat` (`DB.now` models `datetime.utcnow()` at the moment the
  handler runs);
* float-valued hour fields are modelled as `Int` (only equality on them is
  ever observed by the embedded code);
* SQLAlchemy tables are Lean lists; `Model.query.get(pk)` is `List.find?` on
  the primary key; the store may also be in an erroring state
  (`DB.storeErr = some e`), in which case every query raises, modelled by
  `Except`: this mirrors the `try`/`except` blocks of the source;
* each Flask handler becomes a function from the database, the authenticated
  principal's id, the path parameters and the (already JSON-decoded) body to
  an HTTP status code together with the database after the request.
-/

namespace TTM

/-- Embeds `models.User` (the fields the embedded handlers consult). -/
structure User where
  id : Nat
  email : String
  username : String
deriving Repr, DecidableEq

/-- Embeds `models.Project` (the fields the embedded handlers consult).
`status` defaults to `"active"`. -/
structure Project where
  id : Nat
  name : String
  description : Option String := none
  ownerId : Nat
  status : String := "active"
  startDate : Option Nat := none
  endDate : Option Nat := none
deriving Repr, DecidableEq

/-- Embeds `models.ProjectMember`: links a user to a project with a role
(`"admin"` or `"member"`, default `"member"`).  The table carries a unique
constraint on `(project_id, user_id)` (`unique_project_member`). -/
structure ProjectMember where
  id : Nat
  userId : Nat
  projectId : Nat
  role : String := "member"
deriving Repr, DecidableEq

/-- Embeds `models.Task` (the fields the embedded handlers consult).
`status` defaults to `"todo"`, `priority` to `"medium"`, `progress` to `0`,
`completed_at` to `NULL`. -/
structure Task where
  id : Nat
  title : String
  description : Option String := none
  status : String := "todo"
  priority : String := "medium"
  estimatedHours : Option Int := none
  actualHours : Option Int := none
  progress : Nat := 0
  projectId : Nat
  assignedTo : Option Nat := none
  createdBy : Nat
  dueDate : Option Nat := none
  completedAt : Option Nat := none
deriving Repr, DecidableEq

/-- Embeds `models.Notification` (the fields the embedded handlers set). -/
structure Notification where
  userId : Nat
  ntype : String
  relatedProjectId : Option Nat := none
  relatedTaskId : Option Nat := none
deriving Repr, DecidableEq

/-- Embeds `models.ActivityLog` (the fields the embedded handlers set). -/
structure ActivityLog where
  projectId : Nat
  userId : Nat
  action : String
  resourceType : String
  resourceId : Nat
deriving Repr, DecidableEq

/-- The relational store plus the request-time clock.
`storeErr = some e` models a backend in which every query raises `e`;
`nextId` models the autoincrement counter handed out by `flush()`. -/
structure DB where
  users : List User
  projects : List Project
  members : List ProjectMember
  tasks : List Task
  notifications : List Notification := []
  activities : List ActivityLog := []
  storeErr : Option String := none
  now : Nat := 0
  nextId : Nat := 1000
deriving Repr, DecidableEq

/-- Query `Project.query.get(pid)` — raises when the store errors. -/
def DB.getProject (db : DB) (pid : Nat) : Except String (Option Project) :=
  match db.storeErr with
  | some e => .error e
  | none => .ok (db.projects.find? (fun p => p.id == pid))

/-- Query `User.query.get(uid)` — raises when the store errors. -/
def DB.getUser (db : DB) (uid : Nat) : Except String (Option User) :=
  match db.storeErr with
  | some e => .error e
  | none => .ok (db.users.find? (fun u => u.id == uid))

/-- Query `Task.query.get(tid)` — raises when the store errors. -/
def DB.getTask (db : DB) (tid : Nat) : Except String (Option Task) :=
  match db.storeErr with
  | some e => .error e
  | none => .ok (db.tasks.find? (fun t => t.id == tid))

/-- Query `ProjectMember.query.filter_by(project_id=pid, user_id=uid).first()` —
raises when the store errors. -/
def DB.getMembership (db : DB) (pid uid : Nat) : Except String (Option ProjectMember) :=
  match db.storeErr with
  | some e => .error e
  | none => .ok (db.members.find? (fun m => m.projectId == pid && m.userId == uid))

/-- Pure membership lookup (used inside handlers that query the member table
directly after access has already been established). -/
def DB.findMember (db : DB) (pid uid : Nat) : Option ProjectMember :=
  db.members.find? (fun m => m.projectId == pid && m.userId == uid)

/-- Python truthiness of a tuple: in CPython a 3-tuple is truthy regardless of
its contents, so `not t` is `False` for every 3-tuple `t`.
`projects.check_project_admin` returns a 3-tuple, and its callers
(`update_project`, `add_project_member`, `tasks.delete_task`) guard with
`if not check_project_admin(...)`, so those guards never fire.  This constant
records that fact of the source language, not a simplification. -/
def pyTruthy3 {α β γ : Type} (_t : α × β × γ) : Bool := true

/-- Embeds `projects.check_project_access(project_id, user_id)` (src/projects.py
lines 39–77). Returns `(has_access, project, role)`; every raised store error
is caught and turned into `(False, None, None)`. The owner branch returns the
role string `"owner"`. -/
def check_project_access (db : DB) (projectId userId : Nat) :
    Bool × Option Project × Option String :=
  match db.getProject projectId with
  | .error _ => (false, none, none)
  | .ok none => (false, none, none)
  | .ok (some project) =>
    if project.ownerId == userId then
      (true, some project, some "owner")
    else
      match db.getMembership projectId userId with
      | .error _ => (false, none, none)
      | .ok (some member) => (true, some project, some member.role)
      | .ok none => (false, none, none)

/-- Embeds `projects.check_project_admin(project_id, user_id)` (src/projects.py
lines 79–123). Identical to `check_project_access` except that the owner
branch returns `"admin"`; note that the membership branch returns
`(True, project, member.role)` for ANY member, `role='member'` included. -/
def check_project_admin (db : DB) (projectId userId : Nat) :
    Bool × Option Project × Option String :=
  match db.getProject projectId with
  | .error _ => (false, none, none)
  | .ok none => (false, none, none)
  | .ok (some project) =>
    if project.ownerId == userId then
      (true, some project, some "admin")
    else
      match db.getMembership projectId userId with
      | .error _ => (false, none, none)
      | .ok (some member) => (true, some project, some member.role)
      | .ok none => (false, none, none)

/-- Embeds `tasks.check_task_access(task_id, user_id)` (src/tasks.py lines 53–78).
Loads the task, then delegates to `check_project_access` on the task's
project; returns `(has_access, task, role)` (the loaded task is returned even
on denial). Store errors are caught and become `(False, None, None)`. -/
def check_task_access (db : DB) (taskId userId : Nat) :
    Bool × Option Task × Option String :=
  match db.getTask taskId with
  | .error _ => (false, none, none)
  | .ok none => (false, none, none)
  | .ok (some task) =>
    let r := check_project_access db task.projectId userId
    (r.1, some task, r.2.2)

/-! ### Project handlers (src/projects.py) -/

/-- Body of `PATCH /projects/:id` after JSON decoding; a `none` field is
absent from the request. -/
structure UpdateProjectData where
  name : Option String := none
  description : Option String := none
  status : Option String := none
deriving Repr, DecidableEq

/-- Python `not data` on the decoded JSON body: an empty dict is falsy. -/
def UpdateProjectData.isEmpty (b : UpdateProjectData) : Bool :=
  b.name.isNone && b.description.isNone && b.status.isNone

/-- Validation per `UpdateProjectSchema`: name length 1–255, description length
≤ 2000, status in `{active, archived, completed}`. -/
def UpdateProjectData.valid (b : UpdateProjectData) : Bool :=
  b.name.all (fun s => 1 ≤ s.length && s.length ≤ 255) &&
  b.description.all (fun s => s.length ≤ 2000) &&
  b.status.all (fun s => s == "active" || s == "archived" || s == "completed")

/-- The field-update loop of `update_project` (src/projects.py lines 463–472):
for each of `name`, `description`, `status` present in the validated data and
different from the current value, record the change and set the attribute.
Returns the updated project and the list of changed field names. -/
def applyProjectUpdate (p : Project) (b : UpdateProjectData) :
    Project × List String :=
  let s1 : Project × List String :=
    match b.name with
    | some v => if p.name != v then ({ p with name := v }, ["name"]) else (p, [])
    | none => (p, [])
  let s2 : Project × List String :=
    match b.description with
    | some v =>
      if s1.1.description != some v then
        ({ s1.1 with description := some v }, s1.2 ++ ["description"])
      else s1
    | none => s1
  match b.status with
  | some v =>
    if s2.1.status != v then
      ({ s2.1 with status := v }, s2.2 ++ ["status"])
    else s2
  | none => s2

/-- Embeds `projects.update_project` (`PATCH /projects/:id`, src/projects.py
lines 430–507), for an authenticated principal `cu`.  Note the admin guard is
`if not check_project_admin(...)` on a 3-tuple (`pyTruthy3`), so it never
rejects.  The bare `Project.query.get` raises out of the handler on a store
error (Flask turns that into a 500). -/
def update_project (db : DB) (cu pid : Nat) (body : UpdateProjectData) :
    Nat × DB :=
  if !(pyTruthy3 (check_project_admin db pid cu)) then (403, db)
  else
    match db.getProject pid with
    | .error _ => (500, db)
    | .ok none => (404, db)
    | .ok (some project) =>
      if body.isEmpty then (400, db)
      else if !body.valid then (400, db)
      else
        let r := applyProjectUpdate project body
        if r.2.isEmpty then (200, db)
        else
          (200, { db with
                    projects := db.projects.map
                      (fun q => if q.id == pid then r.1 else q),
                    activities := db.activities ++
                      [{ projectId := pid, userId := cu,
                         action := "update_project",
                         resourceType := "project", resourceId := pid }] })

/-- Embeds `projects.delete_project` (`DELETE /projects/:id`, src/projects.py
lines 513–551): only the owner may delete; deletion cascades to the project's
memberships and tasks. -/
def delete_project (db : DB) (cu pid : Nat) : Nat × DB :=
  match db.getProject pid with
  | .error _ => (500, db)
  | .ok none => (404, db)
  | .ok (some project) =>
    if project.ownerId != cu then (403, db)
    else
      (200, { db with
                projects := db.projects.filter (fun p => p.id != pid),
                members := db.members.filter (fun m => m.projectId != pid),
                tasks := db.tasks.filter (fun t => t.projectId != pid) })

/-- Body of `POST /projects/:id/members` after schema load (`AddMemberSchema`:
`user_id` required, `role` defaults to `"member"`). -/
structure AddMemberData where
  userId : Nat
  role : String := "member"
deriving Repr, DecidableEq

/-- Validation per `AddMemberSchema` of the role enum. -/
def AddMemberData.valid (b : AddMemberData) : Bool :=
  b.role == "admin" || b.role == "member"

/-- Embeds `projects.add_project_member` (`POST /projects/:id/members`,
src/projects.py lines 595–684).  The admin guard is again
`if not check_project_admin(...)` on a 3-tuple, so it never rejects; a
duplicate membership is answered with 409 before any insert. -/
def add_project_member (db : DB) (cu pid : Nat) (body : AddMemberData) :
    Nat × DB :=
  if !(pyTruthy3 (check_project_admin db pid cu)) then (403, db)
  else if !body.valid then (400, db)
  else
    match db.getUser body.userId with
    | .error _ => (500, db)
    | .ok none => (404, db)
    | .ok (some user) =>
      match db.getMembership pid body.userId with
      | .error _ => (500, db)
      | .ok (some _existing) => (409, db)
      | .ok none =>
        let _ := user
        (201, { db with
                  members := db.members ++
                    [{ id := db.nextId, userId := body.userId,
                       projectId := pid, role := body.role }],
                  notifications := db.notifications ++
                    [{ userId := body.userId, ntype := "member_added",
                       relatedProjectId := some pid }],
                  activities := db.activities ++
                    [{ projectId := pid, userId := cu, action := "add_member",
                       resourceType := "member", resourceId := body.userId }],
                  nextId := db.nextId + 1 })

/-! ### Task handlers (src/tasks.py) -/

/-- Python truthiness of the `assigned_to` value: `None` and `0` are falsy. -/
def assignedTruthy : Option Nat → Bool
  | none => false
  | some a => a != 0

/-- The `notification_config` table of `tasks.create_task_notification`:
unknown action types produce no notifications. -/
def notificationTypeFor : String → Option String
  | "assigned" => some "task_assigned"
  | "completed" => some "task_completed"
  | "commented" => some "comment_added"
  | _ => none

/-- Embeds `tasks.create_task_notification` (src/tasks.py lines 89–148): notifies the
task's assignee (when set and not the actor) and the task's creator (when not
the actor), de-duplicated as the Python `set` does. Returns the notification
rows added to the session. -/
def create_task_notification (task : Task) (actionType : String) (actor : Nat) :
    List Notification :=
  match notificationTypeFor actionType with
  | none => []
  | some nt =>
    let base : List Nat :=
      match task.assignedTo with
      | some a => if a != actor then [a] else []
      | none => []
    let recips :=
      if task.createdBy != actor && !(base.contains task.createdBy) then
        base ++ [task.createdBy]
      else base
    recips.map (fun uid =>
      { userId := uid, ntype := nt, relatedProjectId := some task.projectId,
        relatedTaskId := some task.id })

/-- Body of `POST /projects/:id/tasks` after `CreateTaskSchema` load:
`title` required; `status` and `priority` filled with their `missing`
defaults. -/
structure CreateTaskData where
  title : String
  description : Option String := none
  status : String := "todo"
  priority : String := "medium"
  assignedTo : Option Nat := none
  dueDate : Option Nat := none
  estimatedHours : Option Int := none
deriving Repr, DecidableEq

/-- Validation per `CreateTaskSchema`: title length 1–255, description ≤ 5000,
status and priority in their enums. -/
def CreateTaskData.valid (b : CreateTaskData) : Bool :=
  (1 ≤ b.title.length && b.title.length ≤ 255) &&
  b.description.all (fun s => s.length ≤ 5000) &&
  (b.status == "todo" || b.status == "in_progress" || b.status == "done") &&
  (b.priority == "low" || b.priority == "medium" || b.priority == "high")

/-- Embeds `tasks.create_task` (`POST /projects/:id/tasks`, src/tasks.py
lines 154–267).  `assigned_to`, when truthy, must have a membership row in
the project (the owner has none, so assigning to the owner is rejected);
`completed_at` is not among the constructor arguments, so a freshly created
task always has `completed_at = NULL` whatever its initial status.  Returns
the status code, the database after the request and the serialized task. -/
def create_task (db : DB) (cu pid : Nat) (body : CreateTaskData) :
    Nat × DB × Option Task :=
  let acc := check_project_access db pid cu
  if !acc.1 then (403, db, none)
  else if !body.valid then (400, db, none)
  else if assignedTruthy body.assignedTo &&
          (db.findMember pid (body.assignedTo.getD 0)).isNone then
    (400, db, none)
  else
    let task : Task :=
      { id := db.nextId, title := body.title, description := body.description,
        projectId := pid, createdBy := cu, assignedTo := body.assignedTo,
        status := body.status, priority := body.priority,
        dueDate := body.dueDate, estimatedHours := body.estimatedHours }
    let notifs :=
      if assignedTruthy task.assignedTo && task.assignedTo != some cu then
        create_task_notification task "assigned" cu
      else []
    (201,
     { db with
         tasks := db.tasks ++ [task],
         notifications := db.notifications ++ notifs,
         activities := db.activities ++
           [{ projectId := pid, userId := cu, action := "create_task",
              resourceType := "task", resourceId := task.id }],
         nextId := db.nextId + 1 },
     some task)

/-- Body of `PATCH /tasks/:id` after `UpdateTaskSchema` load; an outer `none`
is an absent field; the `allow_none` fields carry an inner `Option` (an inner
`none` is an explicit JSON `null`). -/
structure UpdateTaskData where
  title : Option String := none
  description : Option String := none
  status : Option String := none
  priority : Option String := none
  assignedTo : Option (Option Nat) := none
  dueDate : Option (Option Nat) := none
  estimatedHours : Option (Option Int) := none
  actualHours : Option (Option Int) := none
  progress : Option Nat := none
deriving Repr, DecidableEq

/-- Python `not data` on the decoded JSON body: an empty dict is falsy. -/
def UpdateTaskData.isEmpty (b : UpdateTaskData) : Bool :=
  b.title.isNone && b.description.isNone && b.status.isNone &&
  b.priority.isNone && b.assignedTo.isNone && b.dueDate.isNone &&
  b.estimatedHours.isNone && b.actualHours.isNone && b.progress.isNone

/-- Validation per `UpdateTaskSchema`: title length 1–255, description ≤ 5000,
status and priority in their enums, progress in 0–100. -/
def UpdateTaskData.valid (b : UpdateTaskData) : Bool :=
  b.title.all (fun s => 1 ≤ s.length && s.length ≤ 255) &&
  b.description.all (fun s => s.length ≤ 5000) &&
  b.status.all (fun s => s == "todo" || s == "in_progress" || s == "done") &&
  b.priority.all (fun s => s == "low" || s == "medium" || s == "high") &&
  b.progress.all (fun n => n ≤ 100)

/-- One iteration of `update_task`'s field loop (src/tasks.py lines 431–438):
when the field is present in the validated data and differs from the current
attribute, record the change and set the attribute. -/
def updField {α : Type} [BEq α] (field : String) (get : Task → α)
    (set : Task → α → Task) (v? : Option α) (acc : Task × List String) :
    Task × List String :=
  match v? with
  | none => acc
  | some v => if get acc.1 != v then (set acc.1 v, acc.2 ++ [field]) else acc

/-- The field loop of `tasks.update_task` (src/tasks.py lines 431–444): the
eight plain fields in source order, innermost first, followed by the
`assigned_to` special case. -/
def applyTaskFieldUpdates (task : Task) (b : UpdateTaskData) :
    Task × List String :=
  updField "assigned_to" Task.assignedTo
    (fun t v => { t with assignedTo := v }) b.assignedTo
  (updField "progress" Task.progress
    (fun t v => { t with progress := v }) b.progress
  (updField "actual_hours" Task.actualHours
    (fun t v => { t with actualHours := v }) b.actualHours
  (updField "estimated_hours" Task.estimatedHours
    (fun t v => { t with estimatedHours := v }) b.estimatedHours
  (updField "due_date" Task.dueDate
    (fun t v => { t with dueDate := v }) b.dueDate
  (updField "priority" Task.priority
    (fun t v => { t with priority := v }) b.priority
  (updField "status" Task.status
    (fun t v => { t with status := v }) b.status
  (updField "description" Task.description
    (fun t v => { t with description := v }) (b.description.map some)
  (updField "title" Task.title
    (fun t v => { t with title := v }) b.title (task, [])))))))))

/-- The task-mutation core of `tasks.update_task` (src/tasks.py
lines 425–453): the field loop and the `assigned_to` special case
(`applyTaskFieldUpdates`), then the `completed_at` special case keyed on
`old_status` (captured before the loop) and the requested status.  `now` is
`datetime.utcnow()` at the handler.  Returns the updated task and the list of
changed field names (the keys of the Python `changes` dict). -/
def applyTaskUpdate (now : Nat) (task : Task) (b : UpdateTaskData) :
    Task × List String :=
  let oldStatus := task.status
  let acc := applyTaskFieldUpdates task b
  match b.status with
  | some s =>
    if oldStatus != "done" && s == "done" then
      ({ acc.1 with completedAt := some now }, acc.2 ++ ["completed_at"])
    else if oldStatus == "done" && s != "done" then
      ({ acc.1 with completedAt := none }, acc.2 ++ ["completed_at"])
    else acc
  | none => acc

/-- Writing the mutated task back to its row (the ORM session holds the
mutated object for the task's primary key; committing stores it). -/
def storeTask (tasks : List Task) (tid : Nat) (t' : Task) : List Task :=
  tasks.map (fun u => if u.id == tid then t' else u)

/-- Embeds `tasks.update_task` (`PATCH /tasks/:id`, src/tasks.py lines 384–513):
access check, body validation, the member check on a truthy `assigned_to`,
then the mutation core; when the change set is empty the handler returns
`No changes to update` without touching the session (no activity row, no
notification); otherwise it stores the task, the notifications and one
activity row. -/
def update_task (db : DB) (cu tid : Nat) (body : UpdateTaskData) : Nat × DB :=
  let acc := check_task_access db tid cu
  if !acc.1 then (403, db)
  else
    match acc.2.1 with
    | none => (403, db)
    | some task =>
      if body.isEmpty then (400, db)
      else if !body.valid then (400, db)
      else if (match body.assignedTo with
               | some v => assignedTruthy v &&
                           (db.findMember task.projectId (v.getD 0)).isNone
               | none => false) then (400, db)
      else
        let r := applyTaskUpdate db.now task body
        if r.2.isEmpty then (200, db)
        else
          let n1 := if r.2.contains "status" && r.1.status == "done" then
                      create_task_notification r.1 "completed" cu
                    else []
          let n2 := if r.2.contains "assigned_to" &&
                       assignedTruthy r.1.assignedTo then
                      create_task_notification r.1 "assigned" cu
                    else []
          (200,
           { db with
               tasks := storeTask db.tasks tid r.1,
               notifications := db.notifications ++ n1 ++ n2,
               activities := db.activities ++
                 [{ projectId := task.projectId, userId := cu,
                    action := "update_task", resourceType := "task",
                    resourceId := tid }] })

/-- Embeds `tasks.delete_task` (`DELETE /tasks/:id`, src/tasks.py lines 519–561).
The guard `if task.created_by != current_user.id and not is_admin:` tests the
truthiness of the 3-tuple returned by `check_project_admin`, so `not is_admin`
is always `False` and the guard never fires. -/
def delete_task (db : DB) (cu tid : Nat) : Nat × DB :=
  let acc := check_task_access db tid cu
  if !acc.1 then (403, db)
  else
    match acc.2.1 with
    | none => (403, db)
    | some task =>
      let is_admin := check_project_admin db task.projectId cu
      if task.createdBy != cu && !(pyTruthy3 is_admin) then (403, db)
      else (200, { db with tasks := db.tasks.filter (fun t => t.id != tid) })

/-- All fields supplied by an update body equal the task's current values
(the premise of the idempotence property). -/
def bodyMatchesTask (task : Task) (b : UpdateTaskData) : Bool :=
  b.title.all (fun v => task.title == v) &&
  b.description.all (fun v => task.description == some v) &&
  b.status.all (fun v => task.status == v) &&
  b.priority.all (fun v => task.priority == v) &&
  b.assignedTo.all (fun v => task.assignedTo == v) &&
  b.dueDate.all (fun v => task.dueDate == v) &&
  b.estimatedHours.all (fun v => task.estimatedHours == v) &&
  b.actualHours.all (fun v => task.actualHours == v) &&
  b.progress.all (fun v => task.progress == v)

/-! ### Invariants and concrete fixtures -/

/-- The `unique_project_member` constraint of `models.ProjectMember`
(src/models.py lines 84–87): at most one membership row per
`(project_id, user_id)` pair. -/
def membersUnique (db : DB) : Prop :=
  db.members.Pairwise
    (fun a b => ¬(a.projectId = b.projectId ∧ a.userId = b.userId))

instance (db : DB) : Decidable (membersUnique db) := by
  unfold membersUnique
  infer_instance

/-- Fixture: user 1 (project owner). -/
def userA : User := { id := 1, email := "a@x", username := "a" }

/-- Fixture: user 2 (member-role member of project 1). -/
def userB : User := { id := 2, email := "b@x", username := "b" }

/-- Fixture: user 3. -/
def userC : User := { id := 3, email := "c@x", username := "c" }

/-- Fixture: project 1 owned by user 1. -/
def projectP : Project := { id := 1, name := "P", ownerId := 1 }

/-- Fixture: user 2 is a `role='member'` member of project 1. -/
def memberB : ProjectMember :=
  { id := 1, userId := 2, projectId := 1, role := "member" }

/-- Fixture: user 3 is a `role='member'` member of project 1. -/
def memberC : ProjectMember :=
  { id := 2, userId := 3, projectId := 1, role := "member" }

/-- Fixture: task 10 in project 1, created by user 2. -/
def taskT : Task := { id := 10, title := "T", projectId := 1, createdBy := 2 }

/-- Fixture database: project 1 (owner user 1) with one member-role member
(user 2); user 3 exists but is unrelated to the project. -/
def dbMember : DB :=
  { users := [userA, userB, userC], projects := [projectP],
    members := [memberB], tasks := [], now := 100, nextId := 50 }

/-- Fixture database: project 1 (owner user 1) with two member-role members
(users 2 and 3) and task 10 created by user 2. -/
def dbTasks : DB :=
  { users := [userA, userB, userC], projects := [projectP],
    members := [memberB, memberC], tasks := [taskT], now := 100, nextId := 50 }

/-- Fixture database: project 1 (owner user 1) with no membership rows. -/
def dbOwnerOnly : DB :=
  { users := [userA], projects := [projectP], members := [], tasks := [],
    now := 100, nextId := 50 }

/-- Fixture: the task produced by the owner's create request with initial
status `done` against `dbOwnerOnly` (row id 50, `completed_at` null). -/
def doneTask : Task :=
  { id := 50, title := "t", status := "done", projectId := 1, createdBy := 1 }

/-! ### Helper lemmas -/

theorem updField_proj {α β : Type} [BEq α] (field : String) (get : Task → α)
    (set : Task → α → Task) (v? : Option α) (acc : Task × List String)
    (f : Task → β) (hf : ∀ t v, f (set t v) = f t) :
    f (updField field get set v? acc).1 = f acc.1 := by
  unfold updField
  cases v? with
  | none => rfl
  | some v =>
    dsimp only
    split
    · exact hf acc.1 v
    · rfl

theorem updField_self {α : Type} [BEq α] [LawfulBEq α] (field : String)
    (get : Task → α) (set : Task → α → Task) (v? : Option α)
    (acc : Task × List String) (h : ∀ v, v? = some v → get acc.1 = v) :
    updField field get set v? acc = acc := by
  unfold updField
  cases hv : v? with
  | none => rfl
  | some v => simp [h v hv]

theorem option_all_spec {α : Type} (p : α → Bool) (o : Option α)
    (h : o.all p = true) : ∀ v, o = some v → p v = true := by
  intro v hv
  rw [hv] at h
  exact h

theorem updField_none {α : Type} [BEq α] (field : String) (get : Task → α)
    (set : Task → α → Task) (acc : Task × List String) :
    updField field get set none acc = acc := rfl

theorem updField_get {α : Type} [BEq α] [LawfulBEq α] (field : String)
    (get : Task → α) (set : Task → α → Task) (v : α) (acc : Task × List String)
    (hset : ∀ t w, get (set t w) = w) :
    get (updField field get set (some v) acc).1 = v := by
  unfold updField
  dsimp only
  split
  · exact hset acc.1 v
  · rename_i h
    simpa using h

theorem updField_nil {α : Type} [BEq α] (field : String) (get : Task → α)
    (set : Task → α → Task) (v? : Option α) (acc : Task × List String)
    (h : (updField field get set v? acc).2 = []) :
    acc.2 = [] ∧ updField field get set v? acc = acc := by
  unfold updField at h ⊢
  cases v? with
  | none => exact ⟨h, rfl⟩
  | some v =>
    dsimp only at h ⊢
    by_cases hc : (get acc.1 != v) = true
    · rw [if_pos hc] at h
      exact absurd h (by simp)
    · rw [if_neg hc] at h ⊢
      exact ⟨h, rfl⟩

theorem fieldUpdates_proj (task : Task) (b : UpdateTaskData) {β : Type}
    (f : Task → β)
    (h1 : ∀ t v, f { t with title := v } = f t)
    (h2 : ∀ t (v : Option String), f { t with description := v } = f t)
    (h3 : ∀ t v, f { t with status := v } = f t)
    (h4 : ∀ t v, f { t with priority := v } = f t)
    (h5 : ∀ t (v : Option Nat), f { t with dueDate := v } = f t)
    (h6 : ∀ t (v : Option Int), f { t with estimatedHours := v } = f t)
    (h7 : ∀ t (v : Option Int), f { t with actualHours := v } = f t)
    (h8 : ∀ t (v : Nat), f { t with progress := v } = f t)
    (h9 : ∀ t (v : Option Nat), f { t with assignedTo := v } = f t) :
    f (applyTaskFieldUpdates task b).1 = f task := by
  unfold applyTaskFieldUpdates
  rw [updField_proj _ _ _ _ _ f h9, updField_proj _ _ _ _ _ f h8,
      updField_proj _ _ _ _ _ f h7, updField_proj _ _ _ _ _ f h6,
      updField_proj _ _ _ _ _ f h5, updField_proj _ _ _ _ _ f h4,
      updField_proj _ _ _ _ _ f h3, updField_proj _ _ _ _ _ f h2,
      updField_proj _ _ _ _ _ f h1]

theorem fieldUpdates_completedAt (task : Task) (b : UpdateTaskData) :
    (applyTaskFieldUpdates task b).1.completedAt = task.completedAt :=
  fieldUpdates_proj task b Task.completedAt (fun _ _ => rfl) (fun _ _ => rfl)
    (fun _ _ => rfl) (fun _ _ => rfl) (fun _ _ => rfl) (fun _ _ => rfl)
    (fun _ _ => rfl) (fun _ _ => rfl) (fun _ _ => rfl)

theorem fieldUpdates_id (task : Task) (b : UpdateTaskData) :
    (applyTaskFieldUpdates task b).1.id = task.id :=
  fieldUpdates_proj task b Task.id (fun _ _ => rfl) (fun _ _ => rfl)
    (fun _ _ => rfl) (fun _ _ => rfl) (fun _ _ => rfl) (fun _ _ => rfl)
    (fun _ _ => rfl) (fun _ _ => rfl) (fun _ _ => rfl)

theorem fieldUpdates_assignedTo (task : Task) (b : UpdateTaskData) :
    (applyTaskFieldUpdates task b).1.assignedTo =
      b.assignedTo.getD task.assignedTo := by
  cases ha : b.assignedTo with
  | none =>
    unfold applyTaskFieldUpdates
    rw [ha, updField_none]
    simp only [Option.getD_none]
    rw [updField_proj "progress" Task.progress
          (fun t v => { t with progress := v }) b.progress _
          Task.assignedTo (fun _ _ => rfl),
        updField_proj "actual_hours" Task.actualHours
          (fun t v => { t with actualHours := v }) b.actualHours _
          Task.assignedTo (fun _ _ => rfl),
        updField_proj "estimated_hours" Task.estimatedHours
          (fun t v => { t with estimatedHours := v }) b.estimatedHours _
          Task.assignedTo (fun _ _ => rfl),
        updField_proj "due_date" Task.dueDate
          (fun t v => { t with dueDate := v }) b.dueDate _
          Task.assignedTo (fun _ _ => rfl),
        updField_proj "priority" Task.priority
          (fun t v => { t with priority := v }) b.priority _
          Task.assignedTo (fun _ _ => rfl),
        updField_proj "status" Task.status
          (fun t v => { t with status := v }) b.status _
          Task.assignedTo (fun _ _ => rfl),
        updField_proj "description" Task.description
          (fun t v => { t with description := v }) (b.description.map some) _
          Task.assignedTo (fun _ _ => rfl),
        updField_proj "title" Task.title
          (fun t v => { t with title := v }) b.title _
          Task.assignedTo (fun _ _ => rfl)]
  | some v =>
    unfold applyTaskFieldUpdates
    rw [ha]
    simpa using
      updField_get "assigned_to" Task.assignedTo
        (fun t v => { t with assignedTo := v }) v _ (fun _ _ => rfl)

theorem fieldUpdates_nil (task : Task) (b : UpdateTaskData)
    (h : (applyTaskFieldUpdates task b).2 = []) :
    applyTaskFieldUpdates task b = (task, []) := by
  unfold applyTaskFieldUpdates at h ⊢
  obtain ⟨h, e9⟩ := updField_nil _ _ _ _ _ h
  rw [e9]
  obtain ⟨h, e8⟩ := updField_nil _ _ _ _ _ h
  rw [e8]
  obtain ⟨h, e7⟩ := updField_nil _ _ _ _ _ h
  rw [e7]
  obtain ⟨h, e6⟩ := updField_nil _ _ _ _ _ h
  rw [e6]
  obtain ⟨h, e5⟩ := updField_nil _ _ _ _ _ h
  rw [e5]
  obtain ⟨h, e4⟩ := updField_nil _ _ _ _ _ h
  rw [e4]
  obtain ⟨h, e3⟩ := updField_nil _ _ _ _ _ h
  rw [e3]
  obtain ⟨h, e2⟩ := updField_nil _ _ _ _ _ h
  rw [e2]
  obtain ⟨h, e1⟩ := updField_nil _ _ _ _ _ h
  rw [e1]

theorem applyTaskUpdate_nil (now : Nat) (task : Task) (b : UpdateTaskData)
    (h : (applyTaskUpdate now task b).2 = []) :
    applyTaskUpdate now task b = (task, []) := by
  simp only [applyTaskUpdate] at h ⊢
  cases hst : b.status with
  | none =>
    rw [hst] at h
    exact fieldUpdates_nil task b h
  | some s =>
    rw [hst] at h
    dsimp only at h ⊢
    by_cases h1 : (task.status != "done" && s == "done") = true
    · rw [if_pos h1] at h
      exact absurd h (by simp)
    · rw [if_neg h1] at h ⊢
      by_cases h2 : (task.status == "done" && s != "done") = true
      · rw [if_pos h2] at h
        exact absurd h (by simp)
      · rw [if_neg h2] at h ⊢
        exact fieldUpdates_nil task b h

theorem applyTaskUpdate_id (now : Nat) (task : Task) (b : UpdateTaskData) :
    (applyTaskUpdate now task b).1.id = task.id := by
  have hf := fieldUpdates_id task b
  simp only [applyTaskUpdate]
  cases hst : b.status with
  | none => exact hf
  | some s =>
    dsimp only
    split
    · simpa using hf
    · split
      · simpa using hf
      · exact hf

theorem applyTaskUpdate_assignedTo (now : Nat) (task : Task)
    (b : UpdateTaskData) :
    (applyTaskUpdate now task b).1.assignedTo =
      b.assignedTo.getD task.assignedTo := by
  have hf := fieldUpdates_assignedTo task b
  simp only [applyTaskUpdate]
  cases hst : b.status with
  | none => exact hf
  | some s =>
    dsimp only
    split
    · simpa using hf
    · split
      · simpa using hf
      · exact hf

theorem fieldUpdates_self (task : Task) (b : UpdateTaskData)
    (h : bodyMatchesTask task b = true) :
    applyTaskFieldUpdates task b = (task, []) := by
  simp only [bodyMatchesTask, Bool.and_eq_true] at h
  obtain ⟨⟨⟨⟨⟨⟨⟨⟨h1, h2⟩, h3⟩, h4⟩, h5⟩, h6⟩, h7⟩, h8⟩, h9⟩ := h
  unfold applyTaskFieldUpdates
  rw [updField_self "title" Task.title (fun t v => { t with title := v })
        b.title (task, [])
        (fun v hv => by simpa using option_all_spec _ _ h1 v hv)]
  rw [updField_self "description" Task.description
        (fun t v => { t with description := v }) (b.description.map some)
        (task, [])
        (fun v hv => by
          rcases Option.map_eq_some'.mp hv with ⟨w, hw, hww⟩
          subst hww
          simpa using option_all_spec _ _ h2 w hw)]
  rw [updField_self "status" Task.status (fun t v => { t with status := v })
        b.status (task, [])
        (fun v hv => by simpa using option_all_spec _ _ h3 v hv)]
  rw [updField_self "priority" Task.priority
        (fun t v => { t with priority := v }) b.priority (task, [])
        (fun v hv => by simpa using option_all_spec _ _ h4 v hv)]
  rw [updField_self "due_date" Task.dueDate
        (fun t v => { t with dueDate := v }) b.dueDate (task, [])
        (fun v hv => by simpa using option_all_spec _ _ h6 v hv)]
  rw [updField_self "estimated_hours" Task.estimatedHours
        (fun t v => { t with estimatedHours := v }) b.estimatedHours (task, [])
        (fun v hv => by simpa using option_all_spec _ _ h7 v hv)]
  rw [updField_self "actual_hours" Task.actualHours
        (fun t v => { t with actualHours := v }) b.actualHours (task, [])
        (fun v hv => by simpa using option_all_spec _ _ h8 v hv)]
  rw [updField_self "progress" Task.progress
        (fun t v => { t with progress := v }) b.progress (task, [])
        (fun v hv => by simpa using option_all_spec _ _ h9 v hv)]
  rw [updField_self "assigned_to" Task.assignedTo
        (fun t v => { t with assignedTo := v }) b.assignedTo (task, [])
        (fun v hv => by simpa using option_all_spec _ _ h5 v hv)]

theorem applyTaskUpdate_self (now : Nat) (task : Task) (b : UpdateTaskData)
    (h : bodyMatchesTask task b = true) :
    applyTaskUpdate now task b = (task, []) := by
  have hfu := fieldUpdates_self task b h
  have hstatus : ∀ s, b.status = some s → task.status = s := by
    simp only [bodyMatchesTask, Bool.and_eq_true] at h
    exact fun s hs => by
      simpa using option_all_spec _ _ h.1.1.1.1.1.1.2 s hs
  simp only [applyTaskUpdate]
  cases hsc : b.status with
  | none => simp [hfu]
  | some s =>
    have hts := hstatus s hsc
    by_cases hd : s = "done"
    · simp [hfu, hts, hd]
    · simp [hfu, hts, hd]

/-! ### Claim theorems -/

/-- C1 — the claim is violated by the code: in `dbMember`, user 2's effective
role in project 1 is `member` (user 2 is not the owner and holds a
member-role membership row), yet user 2's `PATCH /projects/1` returns 200 and
archives the project, and user 2's `POST /projects/1/members` returns 201 and
inserts a membership row.  The admin guard `if not check_project_admin(...)`
tests a 3-tuple, which is always truthy, so the 403 branch is dead. -/
theorem c1_member_mutation_not_rejected :
    (projectP.ownerId ≠ 2 ∧
     dbMember.projects.find? (fun p => p.id == 1) = some projectP ∧
     dbMember.findMember 1 2 = some memberB ∧ memberB.role = "member") ∧
    (update_project dbMember 2 1 { status := some "archived" }).1 = 200 ∧
    ((update_project dbMember 2 1 { status := some "archived" }).2.projects.find?
        (fun p => p.id == 1)).map Project.status = some "archived" ∧
    (add_project_member dbMember 2 1 { userId := 3 }).1 = 201 ∧
    (add_project_member dbMember 2 1 { userId := 3 }).2.members.length =
      dbMember.members.length + 1 := by
  decide

/-- C2 — the claim is violated by the code: in `dbTasks`, user 3 has access to
task 10's project but is neither the task's creator (user 2) nor an admin
(user 3 is not the owner and holds a member-role row), yet user 3's
`DELETE /tasks/10` returns 200 and removes the task.  The guard
`if task.created_by != current_user.id and not is_admin` tests the truthiness
of the 3-tuple `is_admin`, so it never fires. -/
theorem c2_noncreator_nonadmin_delete_succeeds :
    (taskT.createdBy = 2 ∧ projectP.ownerId = 1 ∧
     dbTasks.findMember 1 3 = some memberC ∧ memberC.role = "member" ∧
     (check_task_access dbTasks 10 3).1 = true) ∧
    (delete_task dbTasks 3 10).1 = 200 ∧
    (delete_task dbTasks 3 10).2.tasks.find? (fun t => t.id == 10) = none := by
  decide

/-- C3 counterexample — the claim states that `check_project_access` returns
role `'admin'` for the owner; on `dbOwnerOnly` (project 1, owner user 1, no
membership rows) it returns allowed=true with role `'owner'`, not `'admin'`. -/
theorem c3_owner_role_is_owner_not_admin :
    dbOwnerOnly.members = [] ∧
    check_project_access dbOwnerOnly 1 1 = (true, some projectP, some "owner") ∧
    (check_project_access dbOwnerOnly 1 1).2.2 ≠ some "admin" := by
  decide

/-- C3 amended — for every project P and user U with U = P's owner,
`check_project_access` returns allowed=true with role `'owner'` (not
`'admin'`), regardless of membership rows; the companion
`check_project_admin` is the function that reports role `'admin'` for the
owner. -/
theorem c3_owner_always_allowed_role_owner (db : DB) (pid uid : Nat)
    (p : Project) (hs : db.storeErr = none)
    (hp : db.projects.find? (fun q => q.id == pid) = some p)
    (ho : p.ownerId = uid) :
    check_project_access db pid uid = (true, some p, some "owner") ∧
    check_project_admin db pid uid = (true, some p, some "admin") := by
  unfold check_project_access check_project_admin DB.getProject
  rw [hs]
  simp [hp, ho]

/-- Witness for C3's amended theorem at a concrete input: owner user 1 of
project 1 with no membership rows. -/
theorem c3_owner_always_allowed_role_owner_witness :
    check_project_access dbOwnerOnly 1 1 = (true, some projectP, some "owner") ∧
    check_project_admin dbOwnerOnly 1 1 = (true, some projectP, some "admin") :=
  c3_owner_always_allowed_role_owner dbOwnerOnly 1 1 projectP (by decide)
    (by decide) (by decide)

theorem checkProjectAccess_shape (db : DB) (pid uid : Nat) :
    check_project_access db pid uid = (false, none, none) ∨
    ∃ p r, check_project_access db pid uid = (true, some p, some r) := by
  unfold check_project_access
  cases hg : db.getProject pid with
  | error e => exact Or.inl rfl
  | ok po =>
    cases po with
    | none => exact Or.inl rfl
    | some p =>
      dsimp only
      by_cases ho : (p.ownerId == uid) = true
      · exact Or.inr ⟨p, "owner", by rw [if_pos ho]⟩
      · rw [if_neg ho]
        cases hm : db.getMembership pid uid with
        | error e => exact Or.inl rfl
        | ok mo =>
          cases mo with
          | none => exact Or.inl rfl
          | some m => exact Or.inr ⟨p, m.role, rfl⟩

theorem checkProjectAccess_denied (db : DB) (pid uid : Nat)
    (h : db.storeErr.isSome ∨ db.projects.find? (fun p => p.id == pid) = none) :
    check_project_access db pid uid = (false, none, none) := by
  unfold check_project_access DB.getProject
  rcases h with h | h
  · obtain ⟨e, he⟩ := Option.isSome_iff_exists.mp h
    rw [he]
  · cases hs : db.storeErr with
    | some e => rfl
    | none => rw [h]

theorem checkTaskAccess_denied (db : DB) (tid uid : Nat)
    (h : db.storeErr.isSome ∨ db.tasks.find? (fun t => t.id == tid) = none) :
    check_task_access db tid uid = (false, none, none) := by
  unfold check_task_access DB.getTask
  rcases h with h | h
  · obtain ⟨e, he⟩ := Option.isSome_iff_exists.mp h
    rw [he]
  · cases hs : db.storeErr with
    | some e => rfl
    | none => rw [h]

theorem checkTaskAccess_shape (db : DB) (tid uid : Nat) :
    ((check_task_access db tid uid).1 = false ∧
     (check_task_access db tid uid).2.2 = none) ∨
    ∃ t r, check_task_access db tid uid = (true, some t, some r) := by
  unfold check_task_access
  cases hg : db.getTask tid with
  | error e => exact Or.inl ⟨rfl, rfl⟩
  | ok tk =>
    cases tk with
    | none => exact Or.inl ⟨rfl, rfl⟩
    | some task =>
      rcases checkProjectAccess_shape db task.projectId uid with h | ⟨p, r, h⟩
      · exact Or.inl ⟨by simp [h], by simp [h]⟩
      · exact Or.inr ⟨task, r, by simp [h]⟩

/-- C7 — the access evaluator is total and fails closed: a missing row or an
erroring store yields `(False, None, None)` from both `check_project_access`
and `check_task_access` (no exception escapes them), and each result is one of
the tri-state shapes: denied (allowed=false, role=none) or granted with a
role. -/
theorem c7_evaluator_total_fails_closed (db : DB) (pid tid uid : Nat) :
    ((db.storeErr.isSome ∨ db.projects.find? (fun p => p.id == pid) = none) →
      check_project_access db pid uid = (false, none, none)) ∧
    ((db.storeErr.isSome ∨ db.tasks.find? (fun t => t.id == tid) = none) →
      check_task_access db tid uid = (false, none, none)) ∧
    (check_project_access db pid uid = (false, none, none) ∨
      ∃ p r, check_project_access db pid uid = (true, some p, some r)) ∧
    (((check_task_access db tid uid).1 = false ∧
      (check_task_access db tid uid).2.2 = none) ∨
      ∃ t r, check_task_access db tid uid = (true, some t, some r)) :=
  ⟨checkProjectAccess_denied db pid uid, checkTaskAccess_denied db tid uid,
   checkProjectAccess_shape db pid uid, checkTaskAccess_shape db tid uid⟩

/-- Witness for C7 at concrete inputs: project id 99 and task id 99 have no
rows in `dbOwnerOnly`, and an erroring store also fails closed. -/
theorem c7_evaluator_total_fails_closed_witness :
    check_project_access dbOwnerOnly 99 1 = (false, none, none) ∧
    check_task_access dbOwnerOnly 99 1 = (false, none, none) ∧
    check_project_access { dbOwnerOnly with storeErr := some "down" } 1 1 =
      (false, none, none) :=
  ⟨(c7_evaluator_total_fails_closed dbOwnerOnly 99 99 1).1 (Or.inr (by decide)),
   (c7_evaluator_total_fails_closed dbOwnerOnly 99 99 1).2.1 (Or.inr (by decide)),
   (c7_evaluator_total_fails_closed { dbOwnerOnly with storeErr := some "down" }
      1 1 1).1 (Or.inl (by decide))⟩

/-- C8 — at most one membership row per `(project, user)` pair: adding a
member who already has a membership row in the project answers 409 and leaves
the member table unchanged, and `add_project_member` preserves the
`unique_project_member` uniqueness invariant of the store. -/
theorem c8_membership_unique_conflict (db : DB) (cu pid : Nat)
    (body : AddMemberData) (user : User)
    (hs : db.storeErr = none) (hv : body.valid = true)
    (hu : db.users.find? (fun u => u.id == body.userId) = some user) :
    ((∃ m ∈ db.members, m.projectId = pid ∧ m.userId = body.userId) →
      add_project_member db cu pid body = (409, db)) ∧
    (membersUnique db → membersUnique (add_project_member db cu pid body).2) := by
  constructor
  · intro hdup
    obtain ⟨m, hm, hmp, hmu⟩ := hdup
    have hsome :
        (db.members.find?
          (fun x => x.projectId == pid && x.userId == body.userId)).isSome := by
      rw [List.find?_isSome]
      exact ⟨m, hm, by simp [hmp, hmu]⟩
    obtain ⟨m', hm'⟩ := Option.isSome_iff_exists.mp hsome
    unfold add_project_member DB.getUser DB.getMembership
    rw [hs]
    simp [pyTruthy3, hv, hu, hm']
  · intro huniq
    unfold add_project_member DB.getUser DB.getMembership
    rw [hs]
    simp only [pyTruthy3, Bool.not_true, Bool.false_eq_true, if_false, hv,
      Bool.not_false, hu]
    cases hm : db.members.find?
        (fun x => x.projectId == pid && x.userId == body.userId) with
    | some m' => exact huniq
    | none =>
      have hall := List.find?_eq_none.mp hm
      unfold membersUnique at huniq ⊢
      rw [List.pairwise_append]
      refine ⟨huniq, by simp, ?_⟩
      intro a ha b hb
      simp only [List.mem_singleton] at hb
      subst hb
      rintro ⟨hp', hu'⟩
      have hpa := hall a ha
      simp only [Bool.and_eq_true, beq_iff_eq, not_and] at hpa
      exact hpa (by simpa using hp') (by simpa using hu')

/-- Witness for C8 at a concrete input: user 2 already has a membership row
in project 1 of `dbMember`. -/
theorem c8_membership_unique_conflict_witness :
    add_project_member dbMember 1 1 { userId := 2 } = (409, dbMember) ∧
    membersUnique (add_project_member dbMember 1 1 { userId := 2 }).2 :=
  ⟨(c8_membership_unique_conflict dbMember 1 1 { userId := 2 } userB
      (by decide) (by decide) (by decide)).1 (by decide),
   (c8_membership_unique_conflict dbMember 1 1 { userId := 2 } userB
      (by decide) (by decide) (by decide)).2 (by decide)⟩

/-- C9 — `DELETE /projects/:id` succeeds only for the owner: a 200 implies the
principal owns the project, and every non-owner principal (admin-role members
included) receives 403 with the database unchanged. -/
theorem c9_delete_project_owner_only (db : DB) (cu pid : Nat)
    (hs : db.storeErr = none) :
    ((delete_project db cu pid).1 = 200 →
      ∃ p, db.projects.find? (fun q => q.id == pid) = some p ∧ p.ownerId = cu) ∧
    (∀ p, db.projects.find? (fun q => q.id == pid) = some p → p.ownerId ≠ cu →
      delete_project db cu pid = (403, db)) := by
  unfold delete_project DB.getProject
  rw [hs]
  constructor
  · intro h200
    cases hp : db.projects.find? (fun q => q.id == pid) with
    | none => rw [hp] at h200; simp at h200
    | some p =>
      rw [hp] at h200
      by_cases ho : p.ownerId = cu
      · exact ⟨p, rfl, ho⟩
      · simp [bne_iff_ne, ho] at h200
  · intro p hp hne
    rw [hp]
    simp [bne_iff_ne, hne]

/-- Witness for C9 at a concrete input: user 2 (a member-role member, not the
owner) cannot delete project 1 of `dbMember`; the 200 of the owner's delete
implies ownership. -/
theorem c9_delete_project_owner_only_witness :
    delete_project dbMember 2 1 = (403, dbMember) ∧
    (∃ p, dbMember.projects.find? (fun q => q.id == 1) = some p ∧
      p.ownerId = 1) :=
  ⟨(c9_delete_project_owner_only dbMember 2 1 (by decide)).2 projectP
      (by decide) (by decide),
   (c9_delete_project_owner_only dbMember 1 1 (by decide)).1 (by decide)⟩

/-- C5 — the `completed_at` discipline of the task-update mutation core
(src/tasks.py lines 446–453): an update whose requested status is `done` while
the task's status was not `done` stamps `completed_at` with the transition
time; an update leaving `done` (to any non-`done` status) clears it to null;
an update that does not cross the `done` boundary (status absent, or requested
status on the same side as the current one) leaves `completed_at` unchanged. -/
theorem c5_completed_at_transitions (now : Nat) (task : Task)
    (b : UpdateTaskData) :
    (b.status = some "done" → task.status ≠ "done" →
      (applyTaskUpdate now task b).1.completedAt = some now) ∧
    (∀ s, b.status = some s → task.status = "done" → s ≠ "done" →
      (applyTaskUpdate now task b).1.completedAt = none) ∧
    ((b.status = none ∨
        ∃ s, b.status = some s ∧ (s = "done" ↔ task.status = "done")) →
      (applyTaskUpdate now task b).1.completedAt = task.completedAt) := by
  have hpres := fieldUpdates_completedAt task b
  refine ⟨?_, ?_, ?_⟩
  · intro hs hne
    simp only [applyTaskUpdate, hs]
    simp [bne_iff_ne, hne]
  · intro s hs hdone hne
    simp only [applyTaskUpdate, hs]
    simp [bne_iff_ne, hdone, hne]
  · rintro (hs | ⟨s, hs, hiff⟩)
    · simp only [applyTaskUpdate, hs]
      exact hpres
    · simp only [applyTaskUpdate, hs]
      by_cases hd : s = "done"
      · have ht : task.status = "done" := hiff.mp hd
        simp [bne_iff_ne, hd, ht, hpres]
      · have ht : task.status ≠ "done" := fun h => hd (hiff.mpr h)
        simp [bne_iff_ne, hd, ht, hpres]

/-- Witness for C5 at concrete inputs: on a `todo` task, requesting `done`
stamps `completed_at = now`; on a `done` task with `completed_at` set,
requesting `todo` clears it; requesting `in_progress` on a `todo` task leaves
it untouched. -/
theorem c5_completed_at_transitions_witness :
    (applyTaskUpdate 77 taskT { status := some "done" }).1.completedAt
      = some 77 ∧
    (applyTaskUpdate 77 { taskT with status := "done", completedAt := some 5 }
        { status := some "todo" }).1.completedAt = none ∧
    (applyTaskUpdate 77 { taskT with completedAt := some 5 }
        { status := some "in_progress" }).1.completedAt = some 5 :=
  ⟨(c5_completed_at_transitions 77 taskT { status := some "done" }).1 rfl
      (by decide),
   (c5_completed_at_transitions 77
      { taskT with status := "done", completedAt := some 5 }
      { status := some "todo" }).2.1 "todo" rfl (by decide) (by decide),
   (c5_completed_at_transitions 77 { taskT with completedAt := some 5 }
      { status := some "in_progress" }).2.2
      (Or.inr ⟨"in_progress", rfl, by decide⟩)⟩

/-- C6 — task update is idempotent on unchanged input: when every supplied
field of the PATCH body equals the task's current value, `update_task` leaves
the database exactly as it was — no task row changes, no commit of new rows,
no ActivityLog entry and no notification. -/
theorem c6_update_noop_on_unchanged_input (db : DB) (cu tid : Nat)
    (task : Task) (ro : Option String) (body : UpdateTaskData)
    (hacc : check_task_access db tid cu = (true, some task, ro))
    (hmatch : bodyMatchesTask task body = true) :
    (update_task db cu tid body).2 = db := by
  have happ := applyTaskUpdate_self db.now task body hmatch
  simp only [update_task, hacc, happ]
  simp only [Prod.fst, Prod.snd, Bool.not_true, Bool.false_eq_true, if_false]
  by_cases he : body.isEmpty = true
  · simp [he]
  · by_cases hv : body.valid = true
    · simp [he, hv, happ, apply_ite]
    · simp [he, hv]

/-- Witness for C6 at a concrete input: user 2 re-submits task 10's current
title, status, priority and null assignee; the database is unchanged. -/
theorem c6_update_noop_on_unchanged_input_witness :
    (update_task dbTasks 2 10
      { title := some "T", status := some "todo", priority := some "medium",
        assignedTo := some none }).2 = dbTasks :=
  c6_update_noop_on_unchanged_input dbTasks 2 10 taskT (some "member")
    { title := some "T", status := some "todo", priority := some "medium",
      assignedTo := some none } (by decide) (by decide)

theorem find?_storeTask (l : List Task) (tid : Nat) (task t' : Task)
    (hfind : l.find? (fun t => t.id == tid) = some task)
    (hid : t'.id = task.id) :
    (storeTask l tid t').find? (fun t => t.id == tid) = some t' := by
  have hq : (task.id == tid) = true := by
    have hp := List.find?_some hfind
    simpa using hp
  have ht' : (t'.id == tid) = true := by rw [hid]; exact hq
  unfold storeTask
  induction l with
  | nil => simp at hfind
  | cons x xs ih =>
    simp only [List.map_cons]
    rw [List.find?_cons] at hfind
    rw [List.find?_cons]
    cases hx : (x.id == tid) with
    | true => simp [hx, ht']
    | false =>
      simp only [hx] at hfind
      simpa [hx] using ih hfind

/-- C4 amended — assigning a task (at creation or update) to a user `a`
requires `a` to hold a membership row in the task's project: without one the
request is rejected with 400 and nothing is mutated (the project owner holds
no membership row, so assigning to the owner is rejected too); with one the
request succeeds, and the task's `assigned_to` then equals the requested
user. -/
theorem c4_assignment_requires_membership_row (db : DB) (cu pid tid a : Nat)
    (task : Task) (m : ProjectMember) (ro : Option String)
    (cb : CreateTaskData) (ub : UpdateTaskData) :
    ((check_project_access db pid cu).1 = true → cb.valid = true →
      cb.assignedTo = some a → a ≠ 0 → db.findMember pid a = none →
      create_task db cu pid cb = (400, db, none)) ∧
    ((create_task db cu pid cb).1 = 201 →
      ∃ t, (create_task db cu pid cb).2.2 = some t ∧
        t.assignedTo = cb.assignedTo) ∧
    (check_task_access db tid cu = (true, some task, ro) →
      ub.isEmpty = false → ub.valid = true →
      ub.assignedTo = some (some a) → a ≠ 0 →
      db.findMember task.projectId a = none →
      update_task db cu tid ub = (400, db)) ∧
    (check_task_access db tid cu = (true, some task, ro) →
      db.tasks.find? (fun t => t.id == tid) = some task →
      ub.isEmpty = false → ub.valid = true →
      ub.assignedTo = some (some a) →
      db.findMember task.projectId a = some m →
      (update_task db cu tid ub).1 = 200 ∧
      ∃ t', (update_task db cu tid ub).2.tasks.find? (fun t => t.id == tid)
          = some t' ∧ t'.assignedTo = some a) := by
  refine ⟨?_, ?_, ?_, ?_⟩
  · intro hacc hv ha ha0 hm
    simp only [create_task, hacc, ha, hv]
    simp [assignedTruthy, ha0, hm]
  · intro h201
    simp only [create_task] at h201 ⊢
    by_cases h1 : (!(check_project_access db pid cu).1) = true
    · rw [if_pos h1] at h201
      simp at h201
    · rw [if_neg h1] at h201 ⊢
      by_cases h2 : (!cb.valid) = true
      · rw [if_pos h2] at h201
        simp at h201
      · rw [if_neg h2] at h201 ⊢
        by_cases h3 : (assignedTruthy cb.assignedTo &&
            (db.findMember pid (cb.assignedTo.getD 0)).isNone) = true
        · rw [if_pos h3] at h201
          simp at h201
        · rw [if_neg h3]
          exact ⟨_, rfl, rfl⟩
  · intro hacc hne hv ha ha0 hm
    simp only [update_task, hacc, hne, hv, ha]
    simp [assignedTruthy, ha0, hm]
  · intro hacc hfind hne hv ha hm
    have hgate :
        (match ub.assignedTo with
          | some v => assignedTruthy v &&
              (db.findMember task.projectId (v.getD 0)).isNone
          | none => false) = false := by
      rw [ha]
      simp [hm]
    have hassigned := applyTaskUpdate_assignedTo db.now task ub
    rw [ha] at hassigned
    simp only [Option.getD_some] at hassigned
    constructor
    · simp only [update_task, hacc, hne, hv, hgate, Bool.not_true,
        Bool.false_eq_true, if_false]
      split <;> rfl
    · by_cases hempty :
          ((applyTaskUpdate db.now task ub).2).isEmpty = true
      · have hnil : applyTaskUpdate db.now task ub = (task, []) :=
          applyTaskUpdate_nil db.now task ub (by simpa using hempty)
        have h2db : (update_task db cu tid ub).2 = db := by
          simp only [update_task, hacc, hne, hv, hgate, Bool.not_true,
            Bool.false_eq_true, if_false, hempty, if_true]
        rw [h2db]
        refine ⟨task, hfind, ?_⟩
        rw [hnil] at hassigned
        exact hassigned
      · have h2tasks : (update_task db cu tid ub).2.tasks =
            storeTask db.tasks tid (applyTaskUpdate db.now task ub).1 := by
          simp only [update_task, hacc, hne, hv, hgate, Bool.not_true,
            Bool.false_eq_true, if_false]
          rw [if_neg hempty]
        rw [h2tasks]
        exact ⟨(applyTaskUpdate db.now task ub).1,
          find?_storeTask db.tasks tid task _ hfind
            (applyTaskUpdate_id db.now task ub), hassigned⟩

/-- C4 counterexample — the claim requires that assigning a task to the
project's owner succeeds even without a membership row; in `dbOwnerOnly`
(owner user 1, no membership rows) the owner's own task creation with
`assigned_to = 1` is rejected with 400. -/
theorem c4_assign_owner_rejected :
    dbOwnerOnly.findMember 1 1 = none ∧ projectP.ownerId = 1 ∧
    create_task dbOwnerOnly 1 1 { title := "t", assignedTo := some 1 } =
      (400, dbOwnerOnly, none) := by
  decide

/-- Witness for C4's amended theorem at concrete inputs: assigning to the
membership-row-less owner is rejected; assigning task 10 to member user 3
succeeds and stores `assigned_to = 3`. -/
theorem c4_assignment_requires_membership_row_witness :
    create_task dbOwnerOnly 1 1 { title := "t", assignedTo := some 1 } =
      (400, dbOwnerOnly, none) ∧
    ((update_task dbTasks 2 10 { assignedTo := some (some 3) }).1 = 200 ∧
      ∃ t', (update_task dbTasks 2 10
          { assignedTo := some (some 3) }).2.tasks.find?
            (fun t => t.id == 10) = some t' ∧ t'.assignedTo = some 3) :=
  ⟨(c4_assignment_requires_membership_row dbOwnerOnly 1 1 10 1 taskT memberC
      none { title := "t", assignedTo := some 1 } {}).1 (by decide) (by decide)
      rfl (by decide) (by decide),
   (c4_assignment_requires_membership_row dbTasks 2 1 10 3 taskT memberC
      (some "member") { title := "t" } { assignedTo := some (some 3) }).2.2.2
      (by decide) (by decide) (by decide) (by decide) rfl (by decide)⟩

/-- C10 — a task created through `POST /projects/:id/tasks` always has
`completed_at = NULL`, even when the request's initial status is `done`
(the `Task` constructor call in `create_task` never passes `completed_at`);
consequently the invariant "`completed_at` is non-null iff status is `done`"
fails for reachable tasks: `dbOwnerOnly` plus one create with status `done`
yields a stored task with status `done` and null `completed_at`. -/
theorem c10_created_task_completed_at_null (db : DB) (cu pid : Nat)
    (body : CreateTaskData) :
    ((create_task db cu pid body).1 = 201 →
      ∃ t, (create_task db cu pid body).2.2 = some t ∧
        t.completedAt = none) ∧
    (∃ t, (create_task dbOwnerOnly 1 1 { title := "t", status := "done" }).2.2
        = some t ∧ t.status = "done" ∧ t.completedAt = none ∧
        (create_task dbOwnerOnly 1 1 { title := "t", status := "done" }).1
          = 201) := by
  constructor
  · intro h201
    simp only [create_task] at h201 ⊢
    by_cases h1 : (!(check_project_access db pid cu).1) = true
    · rw [if_pos h1] at h201
      simp at h201
    · rw [if_neg h1] at h201 ⊢
      by_cases h2 : (!body.valid) = true
      · rw [if_pos h2] at h201
        simp at h201
      · rw [if_neg h2] at h201 ⊢
        by_cases h3 : (assignedTruthy body.assignedTo &&
            (db.findMember pid (body.assignedTo.getD 0)).isNone) = true
        · rw [if_pos h3] at h201
          simp at h201
        · rw [if_neg h3]
          exact ⟨_, rfl, rfl⟩
  · exact ⟨doneTask, by decide, rfl, rfl, by decide⟩

/-- Witness for C10 at a concrete input: the owner creates a task with
initial status `done`; the stored task's `completed_at` is null. -/
theorem c10_created_task_completed_at_null_witness :
    ∃ t, (create_task dbOwnerOnly 1 1 { title := "t", status := "done" }).2.2
        = some t ∧ t.completedAt = none :=
  (c10_created_task_completed_at_null dbOwnerOnly 1 1
    { title := "t", status := "done" }).1 (by decide)

end TTM
